import Mathlib

set_option maxHeartbeats 1000000

namespace ZanRedisDB

/-- Member information exchanged between raft peers (common.MemberInfo). -/
structure MemberInfo where
  ID : Nat
  NodeID : Nat
  GroupID : Nat
  GroupName : String
  RaftURLs : List String
  deriving DecidableEq

/-- Removing marker stored in the partition meta. -/
structure RemovingInfo where
  RemoveReplicaID : Nat
  deriving DecidableEq

/-- Partition meta information published by the registry (cluster.PartitionMetaInfo).
Modelled from the spec: the cluster package defining this type is not part of the
sources; the spec data model lists ISR as an ordered sequence field distinct from
RaftNodes, and the Go maps RaftIDs and Removings are embedded as association lists. -/
structure PartitionMetaInfo where
  Name : String
  Partition : Nat
  Replica : Nat
  PartitionNum : Nat
  MinGID : Nat
  EngType : String
  MagicCode : Int
  RaftNodes : List String
  ISR : List String
  RaftIDs : List (String × Nat)
  Removings : List (String × RemovingInfo)
  deriving DecidableEq

/-- Association list lookup used to embed Go map reads. -/
def alookup {α : Type} : List (String × α) → String → Option α
  | [], _ => none
  | p :: rest, k => if p.1 = k then some p.2 else alookup rest k

/-- RaftIDs map access in the Go comma-ok form. -/
def raftIDOf (meta : PartitionMetaInfo) (nid : String) : Option Nat :=
  alookup meta.RaftIDs nid

/-- RaftIDs map access with the Go zero value default for a missing key. -/
def raftIDOfD (meta : PartitionMetaInfo) (nid : String) : Nat :=
  (raftIDOf meta nid).getD 0

/-- Removings map access in the Go comma-ok form. -/
def removingOf (meta : PartitionMetaInfo) (nid : String) : Option RemovingInfo :=
  alookup meta.Removings nid

/-- Modelled from the spec: GetISR of the missing cluster package returns the
partition's ordered in-sync replica list. -/
def GetISR (meta : PartitionMetaInfo) : List String := meta.ISR

/-- GetDesp: the namespace name joined with the partition number. -/
def GetDesp (meta : PartitionMetaInfo) : String :=
  meta.Name ++ "-" ++ toString meta.Partition

/-- The group id of a partition: MinGID + Partition. -/
def despGroupID (meta : PartitionMetaInfo) : Nat :=
  meta.MinGID + meta.Partition

/-- The data node coordinator identity together with its external collaborators.
Modelled from the spec where the collaborator code is missing from the sources:
regIDOf embeds ExtractRegIDFromGenID (the RegID encoded inside a node id string),
raftAddrOf embeds register.GetNodeInfo resolving a raft transport address (none
models a registry error), and peerMembers embeds the peer HTTP members query for
a node id and a namespace Desp (none models a request error). -/
structure DataCoordinator where
  myID : String
  myRegID : Nat
  myRaftAddr : String
  regIDOf : String → Nat
  raftAddrOf : String → Option String
  peerMembers : String → String → Option (List MemberInfo)

/-- Loop of isMeInRaftGroup over the ISR nodes, carrying the lastErr flag
(true when some peer request has failed so far). -/
def isMeInRaftGroupAux (c : DataCoordinator) (desp : String) (myRaftID : Nat) :
    List String → Bool → Bool × Bool
  | [], lastErr => (false, lastErr)
  | nid :: rest, lastErr =>
    if nid = c.myID then isMeInRaftGroupAux c desp myRaftID rest lastErr
    else
      match c.peerMembers nid desp with
      | none => isMeInRaftGroupAux c desp myRaftID rest true
      | some rsp =>
        if rsp.any (fun m => m.NodeID == c.myRegID && m.ID == myRaftID) then (true, lastErr)
        else isMeInRaftGroupAux c desp myRaftID rest lastErr

/-- isMeInRaftGroup: ask every other ISR peer for its member list and succeed on
the first peer that reports a member with my RegID and my raft id. The second
component is whether the returned error is non-nil. -/
def isMeInRaftGroup (c : DataCoordinator) (meta : PartitionMetaInfo) : Bool × Bool :=
  isMeInRaftGroupAux c (GetDesp meta) (raftIDOfD meta c.myID) (GetISR meta) false

/-- isNamespaceShouldStart. -/
def isNamespaceShouldStart (c : DataCoordinator) (meta : PartitionMetaInfo) : Bool :=
  if c.myID ∈ meta.RaftNodes then
    match removingOf meta c.myID with
    | none => true
    | some rm =>
      if rm.RemoveReplicaID ≠ raftIDOfD meta c.myID then true
      else (isMeInRaftGroup c meta).1
  else false

/-- isNamespaceShouldStop; the final branch mirrors the source, which returns
false even after confirming the node is fully out of the raft group. -/
def isNamespaceShouldStop (c : DataCoordinator) (meta : PartitionMetaInfo) : Bool :=
  match removingOf meta c.myID with
  | none => false
  | some rm =>
    if rm.RemoveReplicaID ≠ raftIDOfD meta c.myID then false
    else
      let r := isMeInRaftGroup c meta
      if r.1 || r.2 then false
      else false

/-- The externally visible effects of one reconciliation step on one namespace. -/
inductive Action where
  | proposeAdd (m : MemberInfo)
  | proposeRemove (m : MemberInfo)
  | transferLeader (nid : String)
  | removeFromRaft (removeData : Bool)
  | scheduleRetry
  deriving DecidableEq

/-- addNamespaceRaftMember: skip the proposal when the member is marked as
removing in the meta; otherwise propose the addition when the local namespace
node is present. -/
def addNamespaceRaftMember (c : DataCoordinator) (nsNodePresent : Bool)
    (meta : PartitionMetaInfo) (m : MemberInfo) : List Action :=
  if meta.Removings.any (fun p => m.ID == p.2.RemoveReplicaID && m.NodeID == c.regIDOf p.1) then []
  else if nsNodePresent then [Action.proposeAdd m] else []

/-- removeNamespaceRaftMember: propose the removal when the local namespace
node is present. -/
def removeNamespaceRaftMember (nsNodePresent : Bool) (m : MemberInfo) : List Action :=
  if nsNodePresent then [Action.proposeRemove m] else []

/-- The anyJoined flag of the member-sync pass: true when some replica of the
meta has no member with its raft id in the current member list. -/
def anyJoinedOf (meta : PartitionMetaInfo) (members : List MemberInfo) : Bool :=
  meta.RaftIDs.any (fun p => ! members.any (fun m => m.ID == p.2))

/-- The add-member proposals of the member-sync pass, iterating the meta's
RaftIDs entries: a missing member is proposed when its raft address resolves. -/
def memberAddActionsAux (c : DataCoordinator) (meta : PartitionMetaInfo)
    (members : List MemberInfo) : List (String × Nat) → List Action
  | [] => []
  | p :: rest =>
    if members.any (fun m => m.ID == p.2) then memberAddActionsAux c meta members rest
    else
      match c.raftAddrOf p.1 with
      | none => memberAddActionsAux c meta members rest
      | some raddr =>
        addNamespaceRaftMember c true meta
          { ID := p.2, NodeID := c.regIDOf p.1, GroupID := despGroupID meta,
            GroupName := GetDesp meta, RaftURLs := [raddr] }
          ++ memberAddActionsAux c meta members rest

/-- Add-member proposals over all RaftIDs entries of the meta. -/
def memberAddActions (c : DataCoordinator) (meta : PartitionMetaInfo)
    (members : List MemberInfo) : List Action :=
  memberAddActionsAux c meta members meta.RaftIDs

/-- Removal proposals issued for one member that is present in RaftIDs but
matches a Removings entry. -/
def removingMatchActions (c : DataCoordinator) (m : MemberInfo) :
    List (String × RemovingInfo) → List Action
  | [] => []
  | p :: rest =>
    (if m.ID == p.2.RemoveReplicaID && m.NodeID == c.regIDOf p.1 then
      removeNamespaceRaftMember true m
     else []) ++ removingMatchActions c m rest

/-- The remove-member proposals of the over-provisioned branch: a member absent
from RaftIDs is removed, and a member matching a Removings entry is removed. -/
def memberRemoveActionsAux (c : DataCoordinator) (meta : PartitionMetaInfo) :
    List MemberInfo → List Action
  | [] => []
  | m :: rest =>
    (if meta.RaftIDs.any (fun p => m.ID == p.2) then removingMatchActions c m meta.Removings
     else removeNamespaceRaftMember true m) ++ memberRemoveActionsAux c meta rest

/-- Remove-member proposals over all current members. -/
def memberRemoveActions (c : DataCoordinator) (meta : PartitionMetaInfo)
    (members : List MemberInfo) : List Action :=
  memberRemoveActionsAux c meta members

/-- The member-sync pass of doWork: propose additions for missing replicas,
then either schedule a debounced retry (when anything joined, the members are
at or below the replica count, or the ISR is short) or propose removals. -/
def memberSync (c : DataCoordinator) (meta : PartitionMetaInfo)
    (members : List MemberInfo) : List Action :=
  let adds := memberAddActions c meta members
  if anyJoinedOf meta members = true ∨ members.length ≤ meta.Replica ∨
      (GetISR meta).length < meta.Replica then
    adds ++ [Action.scheduleRetry]
  else
    adds ++ memberRemoveActions c meta members

/-- transferMyNamespaceLeader: resolve the target raft id and return the
transfer request (RegID, raft id); abort with none when the namespace node is
missing or the target has no RaftIDs entry. -/
def transferMyNamespaceLeader (c : DataCoordinator) (nsNodePresent : Bool)
    (meta : PartitionMetaInfo) (nid : String) : Option (Nat × Nat) :=
  if nsNodePresent then
    match raftIDOf meta nid with
    | none => none
    | some toRaftID => some (c.regIDOf nid, toRaftID)
  else none

/-- The per-namespace body of doWork for a running local replica, after the
shouldStop check: skip without a leader, clean a replica evicted from a
non-empty ISR, act only as the raft leader, steer leadership to the preferred
head of the ISR, or fall through to member-sync. -/
def checkRunningNamespace (c : DataCoordinator) (meta : PartitionMetaInfo)
    (leader : Nat) (members : List MemberInfo) : List Action :=
  if leader = 0 then []
  else if c.myID ∉ GetISR meta then
    if 0 < (GetISR meta).length then [Action.removeFromRaft true] else []
  else if leader ≠ c.myRegID ∨ (GetISR meta).length = 0 then []
  else if meta.Replica ≤ (GetISR meta).length ∧ (GetISR meta).headD "" ≠ c.myID then
    [Action.transferLeader ((GetISR meta).headD "")]
  else memberSync c meta members

/-- The outcome of one iteration of the ensureJoinNamespaceGroup retry loop. -/
inductive JoinStep where
  | stepSuccess
  | stepWaitSynced
  | stepRequest (remote : String)
  deriving DecidableEq

/-- The already-joined test of the join loop: some local member carries my
RegID, the group name of this partition and my raft id, and the member list is
larger than half of the ISR. -/
def alreadyJoinedCheck (c : DataCoordinator) (meta : PartitionMetaInfo)
    (raftID : Nat) (mems : List MemberInfo) : Bool :=
  mems.any (fun m => m.NodeID == c.myRegID && m.GroupName == GetDesp meta && m.ID == raftID)
    && decide ((GetISR meta).length / 2 < mems.length)

/-- The candidate list for the join round-robin: the ISR, or RaftNodes when the
ISR is empty. -/
def joinCandidates (meta : PartitionMetaInfo) : List String :=
  if (GetISR meta).isEmpty then meta.RaftNodes else GetISR meta

/-- A join candidate is skipped when it is this node or its RegID is already a
member. -/
def disqualified (c : DataCoordinator) (memRegIDs : List Nat) (r : String) : Bool :=
  r == c.myID || memRegIDs.contains (c.regIDOf r)

/-- The remote-selection loop: walk the candidates round-robin from the retry
counter, consuming fuel, and stop at the first candidate that is not skipped;
when the fuel runs out the last tried candidate is kept. -/
def roundRobinPick (disq : String → Bool) (cands : List String) :
    Nat → Nat → String → String × Nat
  | retry, 0, last => (last, retry)
  | retry, fuel + 1, _ =>
    let r := cands.getD (retry % cands.length) ""
    if disq r then roundRobinPick disq cands (retry + 1) fuel r
    else (r, retry + 1)

/-- pickRemote: the source loop runs while cnt <= len(cands), hence the fuel
len(cands) + 1. -/
def pickRemote (c : DataCoordinator) (memRegIDs : List Nat) (cands : List String)
    (retry : Nat) : String × Nat :=
  roundRobinPick (disqualified c memRegIDs) cands retry (cands.length + 1) ""

/-- One iteration of the join retry loop: in the already-joined state test the
sync status, otherwise pick a remote round-robin and request to join. The
returned Nat is the updated retry counter. -/
def joinLoopBody (c : DataCoordinator) (meta : PartitionMetaInfo) (raftID : Nat)
    (mems : List MemberInfo) (synced : Bool) (retry : Nat) : JoinStep × Nat :=
  if alreadyJoinedCheck c meta raftID mems then
    (if synced then JoinStep.stepSuccess else JoinStep.stepWaitSynced, retry)
  else
    let pick := pickRemote c (mems.map (fun m => m.NodeID)) (joinCandidates meta) retry
    (JoinStep.stepRequest pick.1, pick.2)

/-- One observation of the environment by a join loop iteration: the local
member list and whether the raft log is synced. -/
structure LoopObs where
  mems : List MemberInfo
  synced : Bool
  deriving DecidableEq

/-- The error result of ensureJoinNamespaceGroup (ok is a nil error). -/
inductive JoinResult where
  | ok
  | confInvalid
  | busy
  | waitingSync
  deriving DecidableEq

/-- The join retry loop over a finite trace of observations (the 30 second
budget is embedded as the trace running out); returns the final join error and
the list of remotes actually posted a join request (self is never posted). -/
def ensureJoinLoop (c : DataCoordinator) (meta : PartitionMetaInfo) (raftID : Nat) :
    Nat → List LoopObs → JoinResult × List String
  | _, [] => (JoinResult.ok, [])
  | retry, obs :: rest =>
    match joinLoopBody c meta raftID obs.mems obs.synced retry with
    | (JoinStep.stepSuccess, _) => (JoinResult.ok, [])
    | (JoinStep.stepWaitSynced, retry2) =>
      match rest with
      | [] => (JoinResult.waitingSync, [])
      | _ :: _ => ensureJoinLoop c meta raftID retry2 rest
    | (JoinStep.stepRequest remote, retry2) =>
      let reqs := if remote = c.myID then [] else [remote]
      match rest with
      | [] => (JoinResult.waitingSync, reqs)
      | _ :: _ =>
        let tail := ensureJoinLoop c meta raftID retry2 rest
        (tail.1, reqs ++ tail.2)

/-- Whether this node is marked in Removings with a RemoveReplicaID equal to
its current raft id (the Go map read uses the zero value default). -/
def removingMatchesSelf (c : DataCoordinator) (meta : PartitionMetaInfo) : Bool :=
  match removingOf meta c.myID with
  | some rm => rm.RemoveReplicaID == raftIDOfD meta c.myID
  | none => false

/-- The full outcome of an ensureJoinNamespaceGroup call: its error result, the
join requests posted, and whether a debounced retry nudge was scheduled. -/
structure JoinCallResult where
  result : JoinResult
  requests : List String
  nudged : Bool
  deriving DecidableEq

/-- The join concurrency bound. -/
def MAX_RAFT_JOIN_RUNNING : Nat := 5

/-- ensureJoinNamespaceGroup: skip a node removing itself, apply backpressure
when the incremented catchup counter exceeds the bound, fail on a missing raft
id, and otherwise run the retry loop; a nudge is scheduled exactly when the
final join error is non-nil. -/
def ensureJoinNamespaceGroup (c : DataCoordinator) (meta : PartitionMetaInfo)
    (catchupRunning : Nat) (trace : List LoopObs) : JoinCallResult :=
  if removingMatchesSelf c meta then ⟨JoinResult.ok, [], false⟩
  else if MAX_RAFT_JOIN_RUNNING < catchupRunning + 1 then ⟨JoinResult.busy, [], true⟩
  else
    match raftIDOf meta c.myID with
    | none => ⟨JoinResult.confInvalid, [], false⟩
    | some raftID =>
      let run := ensureJoinLoop c meta raftID 0 trace
      ⟨run.1, run.2, run.1 ≠ JoinResult.ok⟩

/-- A seed entry of the raft group configuration. -/
structure ReplicaInfo where
  NodeID : Nat
  ReplicaID : Nat
  RaftAddr : String
  deriving DecidableEq

/-- The namespace configuration assembled by prepareNamespaceConf. -/
structure NamespaceConfig where
  BaseName : String
  Name : String
  EngType : String
  PartitionNum : Nat
  Replicator : Nat
  GroupID : Nat
  SeedNodes : List ReplicaInfo
  deriving DecidableEq

/-- Resolution of one ISR seed: this node resolves to its own raft address; a
peer resolves through its RaftIDs entry and the registry address, and is
dropped when either is missing. -/
def resolveSeed (c : DataCoordinator) (meta : PartitionMetaInfo) (raftID : Nat)
    (nid : String) : Option ReplicaInfo :=
  if nid = c.myID then some ⟨c.myRegID, raftID, c.myRaftAddr⟩
  else
    match raftIDOf meta nid with
    | none => none
    | some rid =>
      match c.raftAddrOf nid with
      | none => none
      | some addr => some ⟨c.regIDOf nid, rid, addr⟩

/-- prepareNamespaceConf: require a raft id for this node, build the seed list
from the ISR skipping unresolvable entries, and reject an empty seed list. -/
def prepareNamespaceConf (c : DataCoordinator) (meta : PartitionMetaInfo) :
    Option NamespaceConfig :=
  match raftIDOf meta c.myID with
  | none => none
  | some raftID =>
    let seeds := (GetISR meta).foldr (fun nid acc =>
      match resolveSeed c meta raftID nid with
      | none => acc
      | some r => r :: acc) []
    if seeds.length = 0 then none
    else
      some { BaseName := meta.Name, Name := GetDesp meta, EngType := meta.EngType,
             PartitionNum := meta.PartitionNum, Replicator := meta.Replica,
             GroupID := despGroupID meta, SeedNodes := seeds }

/-- The shutdown-relevant coordinator state: the atomic stopping flag, whether
the stop channel is already closed, whether a register is set, how many times
Unregister ran, and whether an already-closed channel was closed again. -/
structure CoordState where
  stopping : Bool
  stopChanClosed : Bool
  hasRegister : Bool
  unregistered : Nat
  doubleClose : Bool
  deriving DecidableEq

/-- prepareLeavingCluster: its first statement dereferences the register to
list all namespaces, so with a nil register the call panics before reaching
the guarded block (none embeds that panic); with a register set it raises the
stopping flag and unregisters the node. -/
def prepareLeavingCluster (s : CoordState) : Option CoordState :=
  if s.hasRegister then
    some { s with stopping := true, unregistered := s.unregistered + 1 }
  else none

/-- Closing the stop channel; closing it twice is recorded as a double close
(a runtime panic in the source language). -/
def closeStopChan (s : CoordState) : CoordState :=
  { s with stopChanClosed := true, doubleClose := s.doubleClose || s.stopChanClosed }

/-- Stop: return at once when the stopping flag is set, otherwise drain the
node and close the stop channel; a panic inside the drain propagates, so the
stop channel is then never closed and the call does not complete. -/
def Stop (s : CoordState) : Option CoordState :=
  if s.stopping then some s
  else
    match prepareLeavingCluster s with
    | none => none
    | some s1 => some (closeStopChan s1)

/-- One per-partition stat entry. -/
structure ISRStat where
  HostName : String
  NodeID : String
  deriving DecidableEq

/-- The per-namespace stat record returned by Stats. -/
structure NamespaceCoordStat where
  Name : String
  Partition : Int
  ISRStats : List ISRStat
  deriving DecidableEq

/-- The namespace-level meta record; only the partition count is consumed. -/
structure NamespaceMetaInfo where
  PartitionNum : Nat
  deriving DecidableEq

/-- The registry reads consumed by Stats; none embeds a lookup error. -/
structure Registry where
  getNamespaceMetaInfo : String → Option NamespaceMetaInfo
  getNamespacePartInfo : String → Int → Option PartitionMetaInfo

/-- Stats: with a namespace and a non-negative partition, one stat entry is
built whose ISRStats are mapped from the partition's RaftNodes; with a negative
partition the source iterates the partition count but still queries the
negative partition each time. -/
def Stats (reg : Registry) (ns : String) (part : Int) :
    List NamespaceCoordStat :=
  if 0 < ns.length then
    match reg.getNamespaceMetaInfo ns with
    | none => []
    | some meta =>
      if 0 ≤ part then
        match reg.getNamespacePartInfo ns part with
        | none => []
        | some nsInfo =>
          [{ Name := ns, Partition := part,
             ISRStats := nsInfo.RaftNodes.map (fun nid => ⟨"", nid⟩) }]
      else
        (List.range meta.PartitionNum).foldr (fun _ acc =>
          match reg.getNamespacePartInfo ns part with
          | none => acc
          | some nsInfo =>
            { Name := ns, Partition := (nsInfo.Partition : Int),
              ISRStats := nsInfo.RaftNodes.map (fun nid => ⟨"", nid⟩) } :: acc) []
  else []

/-- A concrete coordinator: peers are reachable and report no members. -/
def c1coord : DataCoordinator :=
  { myID := "n1", myRegID := 1, myRaftAddr := "a1",
    regIDOf := fun _ => 0, raftAddrOf := fun _ => none,
    peerMembers := fun _ _ => some [] }

/-- A concrete partition meta with this node marked removing under its current
raft id. -/
def c1meta : PartitionMetaInfo :=
  { Name := "ns", Partition := 0, Replica := 2, PartitionNum := 1, MinGID := 0,
    EngType := "", MagicCode := 0, RaftNodes := ["n1", "n2"], ISR := ["n1", "n2"],
    RaftIDs := [("n1", 7), ("n2", 8)], Removings := [("n1", ⟨7⟩)] }

/-- C1: the claim says isNamespaceShouldStop returns true once the node is
listed in Removings with a matching RemoveReplicaID and isMeInRaftGroup reports
it out of the group without error; the source instead returns false on that
final branch, so the predicate is constantly false, as witnessed at a concrete
input satisfying all the claim's conditions. -/
theorem isNamespaceShouldStop_constant_false :
    (∀ (c : DataCoordinator) (meta : PartitionMetaInfo),
      isNamespaceShouldStop c meta = false)
    ∧ removingOf c1meta c1coord.myID = some ⟨7⟩
    ∧ raftIDOfD c1meta c1coord.myID = 7
    ∧ isMeInRaftGroup c1coord c1meta = (false, false)
    ∧ isNamespaceShouldStop c1coord c1meta = false := by
  refine ⟨?_, rfl, rfl, rfl, rfl⟩
  intro c meta
  unfold isNamespaceShouldStop
  cases removingOf meta c.myID with
  | none => rfl
  | some rm =>
    dsimp only
    split
    · rfl
    · split <;> rfl

/-- A coordinator state with a register set. -/
def c8regstate : CoordState :=
  { stopping := false, stopChanClosed := false, hasRegister := true,
    unregistered := 0, doubleClose := false }

/-- The state after the first completed Stop of the registered state above. -/
def c8stopped : CoordState :=
  { stopping := true, stopChanClosed := true, hasRegister := true,
    unregistered := 1, doubleClose := false }

/-- C8: Stop is idempotent: every completed Stop call leaves the atomic
stopping flag set, so a second call after it is gated by the flag into a no-op
that returns the same state without failure and without closing the stop
channel again; on a coordinator constructed without a register an unstopped
Stop never completes in the first place, because the drain panics on the nil
register before touching the stop channel. -/
theorem stop_idempotent :
    (∀ s s1 : CoordState, Stop s = some s1 →
      s1.stopping = true ∧ Stop s1 = some s1)
    ∧ (∀ s : CoordState, s.hasRegister = false → s.stopping = false →
        Stop s = none) := by
  constructor
  · intro s s1 h
    unfold Stop at h
    by_cases hs : s.stopping = true
    · rw [if_pos hs] at h
      injection h with h1
      subst h1
      refine ⟨hs, ?_⟩
      unfold Stop
      rw [if_pos hs]
    · rw [if_neg hs] at h
      unfold prepareLeavingCluster at h
      by_cases hr : s.hasRegister = true
      · rw [if_pos hr] at h
        dsimp only at h
        injection h with h1
        subst h1
        refine ⟨rfl, ?_⟩
        simp [Stop, closeStopChan]
      · rw [if_neg hr] at h
        cases h
  · intro s hr hs
    unfold Stop prepareLeavingCluster
    rw [if_neg (by rw [hs]; exact Bool.false_ne_true),
      if_neg (by rw [hr]; exact Bool.false_ne_true)]

/-- C8 witness: at a concrete registered state the first Stop completes with
the stopping flag set, and the second call returns that same state. -/
theorem stop_idempotent_witness :
    c8stopped.stopping = true ∧ Stop c8stopped = some c8stopped :=
  stop_idempotent.1 c8regstate c8stopped (by decide)

/-- C10: a member whose raft id and RegID match some Removings entry of the
meta is never proposed for addition by addNamespaceRaftMember, whether or not
the local namespace node exists. -/
theorem addNamespaceRaftMember_skips_removing (c : DataCoordinator)
    (nsNodePresent : Bool) (meta : PartitionMetaInfo) (m : MemberInfo)
    (h : ∃ p ∈ meta.Removings, m.ID = p.2.RemoveReplicaID ∧ m.NodeID = c.regIDOf p.1) :
    addNamespaceRaftMember c nsNodePresent meta m = [] := by
  obtain ⟨p, hp, h1, h2⟩ := h
  have hany : meta.Removings.any
      (fun p => m.ID == p.2.RemoveReplicaID && m.NodeID == c.regIDOf p.1) = true := by
    rw [List.any_eq_true]
    exact ⟨p, hp, by simp [h1, h2]⟩
  unfold addNamespaceRaftMember
  simp [hany]

/-- A member matching the removing entry of the concrete meta below. -/
def c10m : MemberInfo :=
  { ID := 9, NodeID := 0, GroupID := 0, GroupName := "ns-0", RaftURLs := [] }

/-- A concrete meta whose Removings lists the member above. -/
def c10meta : PartitionMetaInfo :=
  { Name := "ns", Partition := 0, Replica := 2, PartitionNum := 1, MinGID := 0,
    EngType := "", MagicCode := 0, RaftNodes := ["n1", "n2"], ISR := ["n1"],
    RaftIDs := [("n1", 7), ("n2", 9)], Removings := [("n2", ⟨9⟩)] }

/-- C10 witness: the skipped addition at a concrete removing member. -/
theorem addNamespaceRaftMember_skips_removing_witness :
    addNamespaceRaftMember c1coord true c10meta c10m = [] :=
  addNamespaceRaftMember_skips_removing c1coord true c10meta c10m
    ⟨("n2", ⟨9⟩), by decide, rfl, rfl⟩

/-- The boolean membership answer of the isMeInRaftGroup loop does not depend
on the carried error flag: it holds exactly when some listed peer other than
this node responds with a member carrying my RegID and raft id. -/
theorem isMeInRaftGroupAux_fst_iff (c : DataCoordinator) (desp : String)
    (myRaftID : Nat) (nodes : List String) :
    ∀ lastErr : Bool,
      ((isMeInRaftGroupAux c desp myRaftID nodes lastErr).1 = true ↔
        ∃ nid ∈ nodes, nid ≠ c.myID ∧
          ∃ rsp, c.peerMembers nid desp = some rsp ∧
            ∃ m ∈ rsp, m.NodeID = c.myRegID ∧ m.ID = myRaftID) := by
  induction nodes with
  | nil => intro lastErr; simp [isMeInRaftGroupAux]
  | cons nid rest ih =>
    intro lastErr
    unfold isMeInRaftGroupAux
    by_cases h1 : nid = c.myID
    · rw [if_pos h1, ih lastErr]
      constructor
      · rintro ⟨x, hx, hrestx⟩
        exact ⟨x, List.mem_cons_of_mem _ hx, hrestx⟩
      · rintro ⟨x, hx, hne, hrestx⟩
        rcases List.mem_cons.mp hx with h | h
        · exact absurd (h.trans h1) hne
        · exact ⟨x, h, hne, hrestx⟩
    · rw [if_neg h1]
      cases hpm : c.peerMembers nid desp with
      | none =>
        dsimp only
        rw [ih true]
        constructor
        · rintro ⟨x, hx, hrestx⟩
          exact ⟨x, List.mem_cons_of_mem _ hx, hrestx⟩
        · rintro ⟨x, hx, hne, rsp, hrsp, hm⟩
          rcases List.mem_cons.mp hx with h | h
          · rw [h, hpm] at hrsp; cases hrsp
          · exact ⟨x, h, hne, rsp, hrsp, hm⟩
      | some rsp =>
        dsimp only
        by_cases hany :
            rsp.any (fun m => m.NodeID == c.myRegID && m.ID == myRaftID) = true
        · rw [if_pos hany]
          simp only [true_iff]
          obtain ⟨m, hm, hcond⟩ := List.any_eq_true.mp hany
          simp only [Bool.and_eq_true, beq_iff_eq] at hcond
          exact ⟨nid, List.mem_cons_self _ _, h1, rsp, hpm, m, hm, hcond.1, hcond.2⟩
        · rw [if_neg hany, ih lastErr]
          constructor
          · rintro ⟨x, hx, hrestx⟩
            exact ⟨x, List.mem_cons_of_mem _ hx, hrestx⟩
          · rintro ⟨x, hx, hne, rsp2, hrsp2, m, hm, hc1, hc2⟩
            rcases List.mem_cons.mp hx with h | h
            · exfalso
              rw [h, hpm] at hrsp2
              cases hrsp2
              exact hany (List.any_eq_true.mpr ⟨m, hm, by simp [hc1, hc2]⟩)
            · exact ⟨x, h, hne, rsp2, hrsp2, m, hm, hc1, hc2⟩

/-- C2: isNamespaceShouldStart returns false when this node is not in
RaftNodes; true when it is in RaftNodes and not in Removings; true when the
Removings entry is stale against a superseded raft id; and otherwise exactly
the isMeInRaftGroup answer, which holds iff some reachable ISR peer other than
this node reports a member with my RegID and my raft id. -/
theorem isNamespaceShouldStart_spec (c : DataCoordinator)
    (meta : PartitionMetaInfo) :
    (c.myID ∉ meta.RaftNodes → isNamespaceShouldStart c meta = false)
    ∧ (c.myID ∈ meta.RaftNodes → removingOf meta c.myID = none →
        isNamespaceShouldStart c meta = true)
    ∧ (∀ rm : RemovingInfo, c.myID ∈ meta.RaftNodes →
        removingOf meta c.myID = some rm →
        rm.RemoveReplicaID ≠ raftIDOfD meta c.myID →
        isNamespaceShouldStart c meta = true)
    ∧ (∀ rm : RemovingInfo, c.myID ∈ meta.RaftNodes →
        removingOf meta c.myID = some rm →
        rm.RemoveReplicaID = raftIDOfD meta c.myID →
        (isNamespaceShouldStart c meta = true ↔
          ∃ nid ∈ GetISR meta, nid ≠ c.myID ∧
            ∃ rsp, c.peerMembers nid (GetDesp meta) = some rsp ∧
              ∃ m ∈ rsp, m.NodeID = c.myRegID ∧ m.ID = raftIDOfD meta c.myID)) := by
  refine ⟨?_, ?_, ?_, ?_⟩
  · intro h
    simp [isNamespaceShouldStart, h]
  · intro h hrm
    simp [isNamespaceShouldStart, h, hrm]
  · intro rm h hrm hne
    simp [isNamespaceShouldStart, h, hrm, hne]
  · intro rm h hrm heq
    have hred : isNamespaceShouldStart c meta = (isMeInRaftGroup c meta).1 := by
      simp [isNamespaceShouldStart, h, hrm, heq]
    rw [hred, isMeInRaftGroup]
    exact isMeInRaftGroupAux_fst_iff c (GetDesp meta) (raftIDOfD meta c.myID)
      (GetISR meta) false

/-- A concrete coordinator whose second peer affirms my membership. -/
def c2coord : DataCoordinator :=
  { myID := "n1", myRegID := 1, myRaftAddr := "a1",
    regIDOf := fun _ => 0, raftAddrOf := fun _ => none,
    peerMembers := fun nid _ =>
      if nid = "n2" then some [⟨7, 1, 0, "ns-0", []⟩] else none }

/-- A concrete meta where this node is removing under its current raft id. -/
def c2meta : PartitionMetaInfo :=
  { Name := "ns", Partition := 0, Replica := 2, PartitionNum := 1, MinGID := 0,
    EngType := "", MagicCode := 0, RaftNodes := ["n1", "n2"], ISR := ["n1", "n2"],
    RaftIDs := [("n1", 7), ("n2", 8)], Removings := [("n1", ⟨7⟩)] }

/-- C2 witness: with a matching removal entry and a peer that still lists this
node, isNamespaceShouldStart answers true. -/
theorem isNamespaceShouldStart_spec_witness :
    isNamespaceShouldStart c2coord c2meta = true :=
  ((isNamespaceShouldStart_spec c2coord c2meta).2.2.2 ⟨7⟩ (by decide) rfl rfl).mpr
    ⟨"n2", by decide, by decide, [⟨7, 1, 0, "ns-0", []⟩], by decide,
      ⟨7, 1, 0, "ns-0", []⟩, by decide, rfl, rfl⟩

/-- addNamespaceRaftMember yields at most the addition of its argument. -/
theorem mem_addNamespaceRaftMember {c : DataCoordinator} {b : Bool}
    {meta : PartitionMetaInfo} {m : MemberInfo} {a : Action}
    (h : a ∈ addNamespaceRaftMember c b meta m) : a = Action.proposeAdd m := by
  unfold addNamespaceRaftMember at h
  split at h
  · cases h
  · split at h
    · exact List.mem_singleton.mp h
    · cases h

/-- Every action of the add pass is an add proposal. -/
theorem mem_memberAddActionsAux {c : DataCoordinator} {meta : PartitionMetaInfo}
    {members : List MemberInfo} :
    ∀ (l : List (String × Nat)) (a : Action),
      a ∈ memberAddActionsAux c meta members l → ∃ m, a = Action.proposeAdd m := by
  intro l
  induction l with
  | nil => intro a h; cases h
  | cons p rest ih =>
    intro a h
    unfold memberAddActionsAux at h
    split at h
    · exact ih a h
    · split at h
      · exact ih a h
      · rcases List.mem_append.mp h with h2 | h2
        · exact ⟨_, mem_addNamespaceRaftMember h2⟩
        · exact ih a h2

/-- When every replica id already has a member, the add pass is empty. -/
theorem memberAddActionsAux_nil {c : DataCoordinator} {meta : PartitionMetaInfo}
    {members : List MemberInfo} :
    ∀ l : List (String × Nat),
      (∀ p ∈ l, members.any (fun m => m.ID == p.2) = true) →
      memberAddActionsAux c meta members l = [] := by
  intro l
  induction l with
  | nil => intro _; rfl
  | cons p rest ih =>
    intro h
    unfold memberAddActionsAux
    rw [if_pos (h p (List.mem_cons_self _ _))]
    exact ih fun q hq => h q (List.mem_cons_of_mem _ hq)

/-- Every action of the removing-match pass removes exactly the given member. -/
theorem mem_removingMatchActions {c : DataCoordinator} {m : MemberInfo} :
    ∀ (l : List (String × RemovingInfo)) (a : Action),
      a ∈ removingMatchActions c m l → a = Action.proposeRemove m := by
  intro l
  induction l with
  | nil => intro a h; cases h
  | cons p rest ih =>
    intro a h
    unfold removingMatchActions at h
    rcases List.mem_append.mp h with h2 | h2
    · split at h2
      · unfold removeNamespaceRaftMember at h2
        rw [if_pos rfl] at h2
        exact List.mem_singleton.mp h2
      · cases h2
    · exact ih a h2

/-- Every action of the removal pass is a removal proposal. -/
theorem mem_memberRemoveActionsAux {c : DataCoordinator} {meta : PartitionMetaInfo} :
    ∀ (l : List MemberInfo) (a : Action),
      a ∈ memberRemoveActionsAux c meta l → ∃ m, a = Action.proposeRemove m := by
  intro l
  induction l with
  | nil => intro a h; cases h
  | cons m rest ih =>
    intro a h
    unfold memberRemoveActionsAux at h
    rcases List.mem_append.mp h with h2 | h2
    · split at h2
      · exact ⟨m, mem_removingMatchActions _ a h2⟩
      · unfold removeNamespaceRaftMember at h2
        rw [if_pos rfl] at h2
        exact ⟨m, List.mem_singleton.mp h2⟩
    · exact ih a h2

/-- The member-sync pass only proposes additions and removals or schedules a
retry. -/
theorem mem_memberSync {c : DataCoordinator} {meta : PartitionMetaInfo}
    {members : List MemberInfo} {a : Action}
    (h : a ∈ memberSync c meta members) :
    (∃ m, a = Action.proposeAdd m) ∨ (∃ m, a = Action.proposeRemove m) ∨
      a = Action.scheduleRetry := by
  unfold memberSync at h
  split at h
  · rcases List.mem_append.mp h with h2 | h2
    · exact Or.inl (mem_memberAddActionsAux _ a h2)
    · exact Or.inr (Or.inr (List.mem_singleton.mp h2))
  · rcases List.mem_append.mp h with h2 | h2
    · exact Or.inl (mem_memberAddActionsAux _ a h2)
    · exact Or.inr (Or.inl (mem_memberRemoveActionsAux _ a h2))

/-- The anyJoined flag is false exactly when every replica id is found among
the members. -/
theorem anyJoinedOf_eq_false {meta : PartitionMetaInfo} {members : List MemberInfo} :
    anyJoinedOf meta members = false ↔
      ∀ p ∈ meta.RaftIDs, members.any (fun m => m.ID == p.2) = true := by
  unfold anyJoinedOf
  rw [← Bool.not_eq_true, List.any_eq_true]
  constructor
  · intro h p hp
    by_contra hfalse
    exact h ⟨p, hp, by simp [hfalse]⟩
  · rintro h ⟨p, hp, hcond⟩
    rw [h p hp] at hcond
    cases hcond

/-- C3: a removal is proposed by the member-sync pass only when nothing joined
in the round (so no addition was proposed either), the members exceed the
replica factor and the ISR is at least the replica factor; in all other cases
the pass schedules a debounced retry and proposes no removal. -/
theorem memberSync_shrink_safety (c : DataCoordinator) (meta : PartitionMetaInfo)
    (members : List MemberInfo) :
    (∀ m : MemberInfo, Action.proposeRemove m ∈ memberSync c meta members →
      anyJoinedOf meta members = false ∧ meta.Replica < members.length ∧
        meta.Replica ≤ (GetISR meta).length ∧
        ∀ m2 : MemberInfo, Action.proposeAdd m2 ∉ memberSync c meta members)
    ∧ (anyJoinedOf meta members = true ∨ members.length ≤ meta.Replica ∨
        (GetISR meta).length < meta.Replica →
      Action.scheduleRetry ∈ memberSync c meta members ∧
        ∀ m : MemberInfo, Action.proposeRemove m ∉ memberSync c meta members) := by
  by_cases hcond : anyJoinedOf meta members = true ∨ members.length ≤ meta.Replica ∨
      (GetISR meta).length < meta.Replica
  · have hsync : memberSync c meta members =
        memberAddActions c meta members ++ [Action.scheduleRetry] := by
      unfold memberSync
      rw [if_pos hcond]
    constructor
    · intro m hm
      exfalso
      rw [hsync] at hm
      rcases List.mem_append.mp hm with h2 | h2
      · obtain ⟨m2, hm2⟩ := mem_memberAddActionsAux _ _ h2
        cases hm2
      · cases List.mem_singleton.mp h2
    · intro _
      constructor
      · rw [hsync]
        exact List.mem_append.mpr (Or.inr (List.mem_singleton.mpr rfl))
      · intro m hm
        rw [hsync] at hm
        rcases List.mem_append.mp hm with h2 | h2
        · obtain ⟨m2, hm2⟩ := mem_memberAddActionsAux _ _ h2
          cases hm2
        · cases List.mem_singleton.mp h2
  · push_neg at hcond
    obtain ⟨hjoined0, hlen, hisr⟩ := hcond
    have hjoined : anyJoinedOf meta members = false := Bool.eq_false_iff.mpr hjoined0
    have hadds : memberAddActions c meta members = [] :=
      memberAddActionsAux_nil _ (anyJoinedOf_eq_false.mp hjoined)
    have hsync : memberSync c meta members = memberRemoveActions c meta members := by
      unfold memberSync
      rw [if_neg ?h, hadds, List.nil_append]
      case h =>
        push_neg
        exact ⟨by rw [hjoined]; exact Bool.false_ne_true, hlen, hisr⟩
    constructor
    · intro m _
      refine ⟨hjoined, hlen, hisr, ?_⟩
      intro m2 hm2
      rw [hsync] at hm2
      obtain ⟨m3, hm3⟩ := mem_memberRemoveActionsAux _ _ hm2
      cases hm3
    · intro h
      exfalso
      rcases h with h | h | h
      · rw [hjoined] at h; cases h
      · exact absurd hlen (not_lt.mpr h)
      · exact absurd hisr (not_le.mpr h)

/-- C3 witness: with an empty member list something is missing, so the pass
only schedules a retry and proposes no removal. -/
theorem memberSync_shrink_safety_witness :
    Action.scheduleRetry ∈ memberSync c1coord c10meta []
    ∧ Action.proposeRemove c10m ∉ memberSync c1coord c10meta [] := by
  have h := (memberSync_shrink_safety c1coord c10meta []).2 (Or.inl (by decide))
  exact ⟨h.1, h.2 c10m⟩

/-- C4: for a running replica whose raft leader is this node and whose meta
lists this node in the ISR, a leader transfer targets exactly the head of the
ISR, exactly when the ISR reaches the replica factor and its head is another
node; when the head is this node no transfer is proposed; and the transfer
helper aborts without touching the replica when the target has no raft id. -/
theorem leaderSteering_spec (c : DataCoordinator) (meta : PartitionMetaInfo)
    (leader : Nat) (members : List MemberInfo)
    (hl : leader = c.myRegID) (hl0 : leader ≠ 0) (hin : c.myID ∈ GetISR meta) :
    (∀ nid : String,
      Action.transferLeader nid ∈ checkRunningNamespace c meta leader members ↔
        meta.Replica ≤ (GetISR meta).length ∧ (GetISR meta).headD "" ≠ c.myID ∧
          nid = (GetISR meta).headD "")
    ∧ ((GetISR meta).headD "" = c.myID → ∀ nid : String,
        Action.transferLeader nid ∉ checkRunningNamespace c meta leader members)
    ∧ (∀ nid : String, raftIDOf meta nid = none →
        transferMyNamespaceLeader c true meta nid = none) := by
  have hlen0 : (GetISR meta).length ≠ 0 := by
    intro h0
    rw [List.length_eq_zero] at h0
    rw [h0] at hin
    cases hin
  have hred : checkRunningNamespace c meta leader members =
      if meta.Replica ≤ (GetISR meta).length ∧ (GetISR meta).headD "" ≠ c.myID then
        [Action.transferLeader ((GetISR meta).headD "")]
      else memberSync c meta members := by
    unfold checkRunningNamespace
    rw [if_neg hl0, if_neg (fun hno => hno hin), if_neg ?hc]
    case hc =>
      rintro (h | h)
      · exact h hl
      · exact hlen0 h
  have hnotrans : ∀ nid : String,
      Action.transferLeader nid ∉ memberSync c meta members := by
    intro nid hmem
    rcases mem_memberSync hmem with ⟨m, hm⟩ | ⟨m, hm⟩ | hm <;> cases hm
  refine ⟨?_, ?_, ?_⟩
  · intro nid
    by_cases hc : meta.Replica ≤ (GetISR meta).length ∧ (GetISR meta).headD "" ≠ c.myID
    · rw [hred, if_pos hc]
      constructor
      · intro hmem
        have heq := List.mem_singleton.mp hmem
        injection heq with h2
        exact ⟨hc.1, hc.2, h2⟩
      · rintro ⟨_, _, h3⟩
        rw [h3]
        exact List.mem_singleton.mpr rfl
    · rw [hred, if_neg hc]
      constructor
      · intro hmem
        exact absurd hmem (hnotrans nid)
      · rintro ⟨ha, hb, _⟩
        exact absurd ⟨ha, hb⟩ hc
  · intro hhead nid hmem
    rw [hred, if_neg (fun hc => hc.2 hhead)] at hmem
    exact hnotrans nid hmem
  · intro nid hnone
    simp [transferMyNamespaceLeader, hnone]

/-- A concrete meta whose preferred leader is the other node. -/
def c4meta : PartitionMetaInfo :=
  { Name := "ns", Partition := 0, Replica := 2, PartitionNum := 1, MinGID := 0,
    EngType := "", MagicCode := 0, RaftNodes := ["n1", "n2"], ISR := ["n2", "n1"],
    RaftIDs := [("n1", 7), ("n2", 8)], Removings := [] }

/-- C4 witness: as raft leader with a full ISR headed by the other node, the
transfer to that node is proposed. -/
theorem leaderSteering_spec_witness :
    Action.transferLeader "n2" ∈ checkRunningNamespace c1coord c4meta 1 [] :=
  ((leaderSteering_spec c1coord c4meta 1 [] rfl (by decide) (by decide)).1 "n2").mpr
    ⟨by decide, by decide, rfl⟩

/-- C6: when this node is not removing itself and the incremented catchup
counter exceeds the join bound, ensureJoinNamespaceGroup returns the busy
error at once, schedules a retry nudge, and posts no join request, for any
environment trace. -/
theorem ensureJoin_backpressure (c : DataCoordinator) (meta : PartitionMetaInfo)
    (catchupRunning : Nat) (trace : List LoopObs)
    (hrm : removingMatchesSelf c meta = false)
    (hbusy : MAX_RAFT_JOIN_RUNNING < catchupRunning + 1) :
    ensureJoinNamespaceGroup c meta catchupRunning trace =
      ⟨JoinResult.busy, [], true⟩ := by
  unfold ensureJoinNamespaceGroup
  rw [if_neg (by rw [hrm]; exact Bool.false_ne_true), if_pos hbusy]

/-- C6 witness: with five joins already running, a sixth call is rejected. -/
theorem ensureJoin_backpressure_witness :
    ensureJoinNamespaceGroup c1coord c4meta 5 [] = ⟨JoinResult.busy, [], true⟩ :=
  ensureJoin_backpressure c1coord c4meta 5 [] rfl (by decide)

/-- The seed fold of prepareNamespaceConf is the filterMap of seed resolution
over the ISR. -/
theorem foldr_resolve_eq_filterMap (c : DataCoordinator) (meta : PartitionMetaInfo)
    (raftID : Nat) :
    ∀ l : List String,
      l.foldr (fun nid acc =>
        match resolveSeed c meta raftID nid with
        | none => acc
        | some r => r :: acc) [] = l.filterMap (resolveSeed c meta raftID) := by
  intro l
  induction l with
  | nil => rfl
  | cons nid rest ih =>
    rw [List.foldr_cons, ih]
    cases hx : resolveSeed c meta raftID nid <;> simp [List.filterMap_cons, hx]

/-- C7: prepareNamespaceConf rejects exactly a missing raft id for this node or
an empty resolved seed list; a returned config carries the meta's replica
factor as Replicator, MinGID + Partition as GroupID, and the seeds resolved
from the ISR in order with unresolvable entries skipped. -/
theorem prepareNamespaceConf_spec (c : DataCoordinator) (meta : PartitionMetaInfo) :
    (prepareNamespaceConf c meta = none ↔
      raftIDOf meta c.myID = none ∨
        ∀ raftID, raftIDOf meta c.myID = some raftID →
          (GetISR meta).filterMap (resolveSeed c meta raftID) = [])
    ∧ (∀ cfg : NamespaceConfig, prepareNamespaceConf c meta = some cfg →
        ∃ raftID, raftIDOf meta c.myID = some raftID ∧
          cfg.Replicator = meta.Replica ∧ cfg.GroupID = despGroupID meta ∧
          cfg.SeedNodes = (GetISR meta).filterMap (resolveSeed c meta raftID) ∧
          cfg.SeedNodes ≠ []) := by
  cases hrid : raftIDOf meta c.myID with
  | none =>
    constructor
    · constructor
      · intro _
        exact Or.inl rfl
      · intro _
        unfold prepareNamespaceConf
        rw [hrid]
    · intro cfg hcfg
      unfold prepareNamespaceConf at hcfg
      rw [hrid] at hcfg
      cases hcfg
  | some raftID =>
    have hred : prepareNamespaceConf c meta =
        if ((GetISR meta).filterMap (resolveSeed c meta raftID)).length = 0 then none
        else
          some { BaseName := meta.Name, Name := GetDesp meta, EngType := meta.EngType,
                 PartitionNum := meta.PartitionNum, Replicator := meta.Replica,
                 GroupID := despGroupID meta,
                 SeedNodes := (GetISR meta).filterMap (resolveSeed c meta raftID) } := by
      unfold prepareNamespaceConf
      rw [hrid]
      dsimp only
      rw [foldr_resolve_eq_filterMap]
    constructor
    · constructor
      · intro hnone
        rw [hred] at hnone
        split at hnone
        · next hlen =>
          refine Or.inr fun raftID2 hsome => ?_
          injection hsome with h2
          rw [← h2]
          exact List.length_eq_zero.mp hlen
        · cases hnone
      · rintro (h | h)
        · cases h
        · have hz := h raftID rfl
          rw [hred, if_pos (by rw [hz]; rfl)]
    · intro cfg hcfg
      rw [hred] at hcfg
      split at hcfg
      · cases hcfg
      · next hlen =>
        injection hcfg with h2
        subst h2
        refine ⟨raftID, rfl, rfl, rfl, rfl, ?_⟩
        intro hnil2
        apply hlen
        rw [List.length_eq_zero]
        exact hnil2

/-- The configuration prepareNamespaceConf assembles at the concrete input of
the witness below. -/
def c7cfg : NamespaceConfig :=
  { BaseName := "ns", Name := "ns-0", EngType := "", PartitionNum := 1,
    Replicator := 2, GroupID := 0, SeedNodes := [⟨1, 7, "a1"⟩] }

/-- C7 witness: at a concrete meta the returned config carries the replica
factor, the group id and the seeds resolved from the ISR. -/
theorem prepareNamespaceConf_spec_witness :
    ∃ raftID, raftIDOf c4meta c1coord.myID = some raftID ∧
      c7cfg.Replicator = c4meta.Replica ∧ c7cfg.GroupID = despGroupID c4meta ∧
      c7cfg.SeedNodes = (GetISR c4meta).filterMap (resolveSeed c1coord c4meta raftID) ∧
      c7cfg.SeedNodes ≠ [] :=
  (prepareNamespaceConf_spec c1coord c4meta).2 c7cfg (by decide)

/-- A concrete registry for the Stats theorems: one namespace, one partition
whose meta has a node in Removings, so its ISR is a strict subset of its
RaftNodes. -/
def c9reg : Registry :=
  { getNamespaceMetaInfo := fun _ => some ⟨1⟩,
    getNamespacePartInfo := fun _ _ => some c10meta }

/-- C9 counterexample: the stat entry lists one ISRStat per RaftNodes entry,
including the removing node, not one per in-sync replica of the ISR. -/
theorem stats_isr_counterexample :
    (Stats c9reg "ns" 0).map (fun st => st.ISRStats.map (fun i => i.NodeID)) =
      [["n1", "n2"]]
    ∧ GetISR c10meta = ["n1"]
    ∧ (Stats c9reg "ns" 0).map (fun st => st.ISRStats.map (fun i => i.NodeID)) ≠
        [GetISR c10meta] := by
  refine ⟨by decide, rfl, by decide⟩

/-- C9 amended: for a namespace and a non-negative partition present in the
registry, Stats returns exactly one stat entry whose ISRStats carry one entry
per NodeID of the partition's RaftNodes. -/
theorem stats_lists_raftNodes (reg : Registry) (ns : String) (part : Int)
    (meta : NamespaceMetaInfo) (nsInfo : PartitionMetaInfo)
    (hns : 0 < ns.length) (hp : 0 ≤ part)
    (hmeta : reg.getNamespaceMetaInfo ns = some meta)
    (hpart : reg.getNamespacePartInfo ns part = some nsInfo) :
    Stats reg ns part =
      [{ Name := ns, Partition := part,
         ISRStats := nsInfo.RaftNodes.map (fun nid => ⟨"", nid⟩) }] := by
  unfold Stats
  rw [if_pos hns, hmeta]
  dsimp only
  rw [if_pos hp, hpart]

/-- C9 witness: the amended Stats shape at the concrete registry. -/
theorem stats_lists_raftNodes_witness :
    Stats c9reg "ns" 0 =
      [{ Name := "ns", Partition := 0,
         ISRStats := c10meta.RaftNodes.map (fun nid => ⟨"", nid⟩) }] :=
  stats_lists_raftNodes c9reg "ns" 0 ⟨1⟩ c10meta (by decide) (by decide) rfl rfl

/-- The remote-selection loop stops at the first round-robin candidate that is
not skipped, or returns the last tried candidate when the fuel runs out with
every candidate skipped. -/
theorem roundRobinPick_spec (disq : String → Bool) (cands : List String) :
    ∀ (fuel retry : Nat) (last : String),
      (∃ j < fuel, disq (cands.getD ((retry + j) % cands.length) "") = false ∧
        (∀ i < j, disq (cands.getD ((retry + i) % cands.length) "") = true) ∧
        roundRobinPick disq cands retry fuel last =
          (cands.getD ((retry + j) % cands.length) "", retry + j + 1))
      ∨ ((∀ i < fuel, disq (cands.getD ((retry + i) % cands.length) "") = true) ∧
        roundRobinPick disq cands retry fuel last =
          (if fuel = 0 then last else cands.getD ((retry + (fuel - 1)) % cands.length) "",
            retry + fuel)) := by
  intro fuel
  induction fuel with
  | zero =>
    intro retry last
    exact Or.inr ⟨fun i hi => absurd hi (Nat.not_lt_zero i), rfl⟩
  | succ fuel ih =>
    intro retry last
    unfold roundRobinPick
    by_cases hd : disq (cands.getD (retry % cands.length) "") = true
    · rw [if_pos hd]
      rcases ih (retry + 1) (cands.getD (retry % cands.length) "") with
        ⟨j, hj, hq, hall, heq⟩ | ⟨hall, heq⟩
      · left
        have hidx : retry + 1 + j = retry + (j + 1) := by omega
        refine ⟨j + 1, Nat.succ_lt_succ hj, ?_, ?_, ?_⟩
        · rw [← hidx]
          exact hq
        · intro i hi
          cases i with
          | zero =>
            rw [Nat.add_zero]
            exact hd
          | succ i2 =>
            have h2 : i2 < j := Nat.lt_of_succ_lt_succ hi
            have hidx2 : retry + (i2 + 1) = retry + 1 + i2 := by omega
            rw [hidx2]
            exact hall i2 h2
        · rw [heq, ← hidx]
      · right
        refine ⟨?_, ?_⟩
        · intro i hi
          cases i with
          | zero =>
            rw [Nat.add_zero]
            exact hd
          | succ i2 =>
            have h2 : i2 < fuel := Nat.lt_of_succ_lt_succ hi
            have hidx2 : retry + (i2 + 1) = retry + 1 + i2 := by omega
            rw [hidx2]
            exact hall i2 h2
        · rw [heq]
          cases fuel with
          | zero =>
            rw [if_pos rfl, if_neg (Nat.succ_ne_zero 0)]
            exact rfl
          | succ fuel2 =>
            rw [if_neg (Nat.succ_ne_zero fuel2), if_neg (Nat.succ_ne_zero (fuel2 + 1))]
            have hidx3 : retry + 1 + (fuel2 + 1 - 1) = retry + (fuel2 + 1 + 1 - 1) := by omega
            rw [hidx3]
            refine Prod.ext_iff.mpr ⟨rfl, ?_⟩
            show retry + 1 + (fuel2 + 1) = retry + (fuel2 + (1 + 1))
            omega
    · rw [if_neg hd]
      left
      refine ⟨0, Nat.zero_lt_succ _, ?_, ?_, ?_⟩
      · rw [Nat.add_zero]
        exact Bool.eq_false_iff.mpr hd
      · intro i hi
        exact absurd hi (Nat.not_lt_zero i)
      · exact rfl

/-- C5: one iteration of the join retry loop declares already-joined exactly
when some local member matches my RegID, this partition's group name and my
raft id, and the member count is a majority of the ISR; only then is the sync
status consulted (success exactly in the synced already-joined state); in any
other state the iteration requests a join from a round-robin pick over the
candidates that skips this node and RegIDs already in the members, falling
back to the last tried candidate when every one is skipped. -/
theorem joinLoop_spec (c : DataCoordinator) (meta : PartitionMetaInfo)
    (raftID : Nat) (mems : List MemberInfo) (synced : Bool) (retry : Nat) :
    (alreadyJoinedCheck c meta raftID mems = true ↔
      (∃ m ∈ mems, m.NodeID = c.myRegID ∧ m.GroupName = GetDesp meta ∧ m.ID = raftID) ∧
        (GetISR meta).length / 2 < mems.length)
    ∧ ((joinLoopBody c meta raftID mems synced retry).1 = JoinStep.stepSuccess ↔
        alreadyJoinedCheck c meta raftID mems = true ∧ synced = true)
    ∧ ((joinLoopBody c meta raftID mems synced retry).1 = JoinStep.stepWaitSynced ↔
        alreadyJoinedCheck c meta raftID mems = true ∧ synced = false)
    ∧ (alreadyJoinedCheck c meta raftID mems = false →
        ∃ j ≤ (joinCandidates meta).length,
          joinLoopBody c meta raftID mems synced retry =
            (JoinStep.stepRequest
              ((joinCandidates meta).getD ((retry + j) % (joinCandidates meta).length) ""),
              retry + j + 1) ∧
          (∀ i < j, disqualified c (mems.map (fun m => m.NodeID))
            ((joinCandidates meta).getD ((retry + i) % (joinCandidates meta).length) "") = true) ∧
          (disqualified c (mems.map (fun m => m.NodeID))
            ((joinCandidates meta).getD ((retry + j) % (joinCandidates meta).length) "") = false
            ∨ j = (joinCandidates meta).length)) := by
  refine ⟨?_, ?_, ?_, ?_⟩
  · unfold alreadyJoinedCheck
    rw [Bool.and_eq_true, List.any_eq_true, decide_eq_true_iff]
    constructor
    · rintro ⟨⟨m, hm, hcond⟩, hlen⟩
      simp only [Bool.and_eq_true, beq_iff_eq] at hcond
      exact ⟨⟨m, hm, hcond.1.1, hcond.1.2, hcond.2⟩, hlen⟩
    · rintro ⟨⟨m, hm, h1, h2, h3⟩, hlen⟩
      exact ⟨⟨m, hm, by simp [h1, h2, h3]⟩, hlen⟩
  · unfold joinLoopBody
    by_cases hajc : alreadyJoinedCheck c meta raftID mems = true
    · rw [if_pos hajc]
      cases synced with
      | true => simp [hajc]
      | false => simp [hajc]
    · rw [if_neg hajc]
      constructor
      · intro h
        cases h
      · rintro ⟨h1, _⟩
        exact absurd h1 hajc
  · unfold joinLoopBody
    by_cases hajc : alreadyJoinedCheck c meta raftID mems = true
    · rw [if_pos hajc]
      cases synced with
      | true => simp [hajc]
      | false => simp [hajc]
    · rw [if_neg hajc]
      constructor
      · intro h
        cases h
      · rintro ⟨h1, _⟩
        exact absurd h1 hajc
  · intro hajc
    have hbody : joinLoopBody c meta raftID mems synced retry =
        (JoinStep.stepRequest
          (pickRemote c (mems.map (fun m => m.NodeID)) (joinCandidates meta) retry).1,
          (pickRemote c (mems.map (fun m => m.NodeID)) (joinCandidates meta) retry).2) := by
      unfold joinLoopBody
      rw [if_neg (by rw [hajc]; exact Bool.false_ne_true)]
    rcases roundRobinPick_spec (disqualified c (mems.map (fun m => m.NodeID)))
        (joinCandidates meta) ((joinCandidates meta).length + 1) retry "" with
      ⟨j, hj, hq, hall, heq⟩ | ⟨hall, heq⟩
    · refine ⟨j, Nat.lt_succ_iff.mp hj, ?_, hall, Or.inl hq⟩
      rw [hbody]
      unfold pickRemote
      rw [heq]
    · refine ⟨(joinCandidates meta).length, le_refl _, ?_, ?_, Or.inr rfl⟩
      · rw [hbody]
        unfold pickRemote
        rw [heq, if_neg (Nat.succ_ne_zero _)]
        have hidx : (joinCandidates meta).length + 1 - 1 = (joinCandidates meta).length := by
          omega
        rw [hidx]
        have hidx2 : retry + ((joinCandidates meta).length + 1) =
            retry + (joinCandidates meta).length + 1 := by omega
        rw [hidx2]
      · intro i hi
        exact hall i (Nat.lt_succ_of_lt hi)

/-- C5 witness: with no local members the node is not already joined and the
first round-robin candidate, the other node at the head of the ISR, is picked
for the join request. -/
theorem joinLoop_spec_witness :
    ∃ j ≤ (joinCandidates c4meta).length,
      joinLoopBody c1coord c4meta 7 [] false 0 =
        (JoinStep.stepRequest
          ((joinCandidates c4meta).getD ((0 + j) % (joinCandidates c4meta).length) ""),
          0 + j + 1) ∧
      (∀ i < j, disqualified c1coord (([] : List MemberInfo).map (fun m => m.NodeID))
        ((joinCandidates c4meta).getD ((0 + i) % (joinCandidates c4meta).length) "") = true) ∧
      (disqualified c1coord (([] : List MemberInfo).map (fun m => m.NodeID))
        ((joinCandidates c4meta).getD ((0 + j) % (joinCandidates c4meta).length) "") = false
        ∨ j = (joinCandidates c4meta).length) :=
  (joinLoop_spec c1coord c4meta 7 [] false 0).2.2.2 (by decide)

end ZanRedisDB
